import Mathlib

/-!
Shallow embedding of the retail inventory dashboard core
(src/retail_streamlit.py): synthetic data generation, sidebar
filtering, KPI aggregation, group-by summaries and the CSV export.

Randomness is modelled by passing the raw numpy draws explicitly; the
predicate Draws.Valid states exactly the ranges the numpy calls
guarantee (np.random.choice over the label lists, np.random.randint
half-open integer ranges, np.random.uniform half-open real ranges).
Python floats are modelled as rationals, with the distinguished
not-a-number value modelled by the PyFloat type. Dates are modelled as
integer day offsets from the epoch 2024-01-01.
-/

/-- One row of the synthetic dataset, fields in the column order the
script builds them (the month column is appended after generation). -/
structure InventoryRecord where
  product_id : Nat
  category : String
  region : String
  date : Int
  stock_level : Nat
  sales : Nat
  price : Rat
  cost : Rat
  revenue : Rat
  discount : Rat
  month : String
deriving DecidableEq, Repr

/-- The fixed category labels of the script (line 21). -/
def categories : List String :=
  ["Electronics", "Clothing", "Furniture", "Toys", "Groceries"]

/-- The fixed region labels of the script (line 22). -/
def regions : List String := ["North", "South", "East", "West"]

/-- The raw random draws consumed for one generated record: label
indices for np.random.choice, the np.random.randint results and the
np.random.uniform results. -/
structure Draws where
  catIdx : Nat
  regIdx : Nat
  dateOffset : Nat
  stockDraw : Nat
  salesDraw : Nat
  priceDraw : Rat
  costFactor : Rat
  discountDraw : Rat
deriving Repr

/-- The ranges numpy guarantees for one record's draws:
np.random.choice over the 5 categories and 4 regions,
np.random.randint(0, 180) for the date offset,
np.random.randint(0, 500) for stock_level,
np.random.randint(0, min(stock_level + 1, 100)) for sales,
np.random.uniform(10, 1000) for price,
np.random.uniform(0.4, 0.6) for the cost factor and
np.random.uniform(0, 0.3) for discount. -/
def Draws.Valid (d : Draws) : Prop :=
  d.catIdx < 5 ∧ d.regIdx < 4 ∧ d.dateOffset < 180 ∧ d.stockDraw < 500 ∧
  d.salesDraw < min (d.stockDraw + 1) 100 ∧
  10 ≤ d.priceDraw ∧ d.priceDraw < 1000 ∧
  (2 : Rat) / 5 ≤ d.costFactor ∧ d.costFactor < (3 : Rat) / 5 ∧
  0 ≤ d.discountDraw ∧ d.discountDraw < (3 : Rat) / 10

/-- The month label "YYYY-MM" of a day offset from 2024-01-01, as
produced by dt.to_period applied to the date column: 2024 is a leap
year, so the month boundaries fall at cumulative day counts
31, 60, 91, 121, 152 (all generated offsets are below 180 < 182). -/
def monthOf (d : Int) : String :=
  if d < 31 then "2024-01"
  else if d < 60 then "2024-02"
  else if d < 91 then "2024-03"
  else if d < 121 then "2024-04"
  else if d < 152 then "2024-05"
  else "2024-06"

/-- Build the record of loop index i from its draws (lines 26-48 of
the script), including the month column the script appends at line 51
(a pure function of the date, so appending it per record is
equivalent). -/
def mkRecord (i : Nat) (d : Draws) : InventoryRecord :=
  let price := d.priceDraw
  let cost := price * d.costFactor
  { product_id := i + 1
    category := categories.getD d.catIdx ""
    region := regions.getD d.regIdx ""
    date := (d.dateOffset : Int)
    stock_level := d.stockDraw
    sales := d.salesDraw
    price := price
    cost := cost
    revenue := (d.salesDraw : Rat) * (price - cost)
    discount := d.discountDraw
    month := monthOf (d.dateOffset : Int) }

/-- The records built by the generation loop for i in range(n). -/
def genRecords (n : Nat) (draws : Nat → Draws) : List InventoryRecord :=
  (List.range n).map (fun i => mkRecord i (draws i))

/-- The error kinds the script can raise during generation: a pandas
KeyError (column lookup on a frame lacking the column), or the
InvalidArgument kind named by the design spec (the script never raises
it). -/
inductive GenError where
  | keyError (key : String)
  | invalidArgument
deriving DecidableEq, Repr

/-- generate_inventory_data(n): builds one record per loop index in
range(n), then derives the month column. For n ≤ 0, range(n) is empty,
so pd.DataFrame of the empty record list has no columns at all and the
column lookup of the month-derivation line raises KeyError on the
missing date column; there is no argument validation. -/
def generate_inventory_data (n : Int) (draws : Nat → Draws) :
    Except GenError (List InventoryRecord) :=
  let records := genRecords n.toNat draws
  if records.isEmpty then Except.error (GenError.keyError "date")
  else Except.ok records

/-- The sidebar selection: chosen region labels, a category that is
either the sentinel "All" or one label, and an inclusive date
interval. -/
structure FilterSelection where
  regions : List String
  category : String
  start_date : Int
  end_date : Int

/-- The boolean mask of lines 88-90: region isin the selected regions
and date within the inclusive interval. -/
def matchesBase (sel : FilterSelection) (r : InventoryRecord) : Bool :=
  decide (r.region ∈ sel.regions) && decide (sel.start_date ≤ r.date) &&
    decide (r.date ≤ sel.end_date)

/-- Lines 87-94: apply the region/date mask, then, when the selected
category is not the sentinel "All", keep only rows of that category. -/
def filtered_df (df : List InventoryRecord) (sel : FilterSelection) :
    List InventoryRecord :=
  if sel.category ≠ "All" then
    (df.filter (matchesBase sel)).filter (fun r => decide (r.category = sel.category))
  else
    df.filter (matchesBase sel)

/-- Line 104: sum of the sales column. -/
def total_sales (view : List InventoryRecord) : Nat :=
  (view.map (fun r => r.sales)).sum

/-- Line 105: sum of the revenue column. -/
def total_revenue (view : List InventoryRecord) : Rat :=
  (view.map (fun r => r.revenue)).sum

/-- Line 107: sum of the stock_level column. -/
def total_stock (view : List InventoryRecord) : Nat :=
  (view.map (fun r => r.stock_level)).sum

/-- A Python float that is either the not-a-number value or an actual
numeric value. -/
inductive PyFloat where
  | nan
  | val (q : Rat)
deriving DecidableEq, Repr

/-- pandas Series.mean: not-a-number on an empty series, otherwise the
sum divided by the length. -/
def seriesMean (xs : List Rat) : PyFloat :=
  if xs.isEmpty then PyFloat.nan else PyFloat.val (xs.sum / (xs.length : Rat))

/-- Line 106: mean of the discount column of the filtered frame. -/
def average_discount (view : List InventoryRecord) : PyFloat :=
  seriesMean (view.map (fun r => r.discount))

/-- The group keys of a groupby: the distinct values the key column
takes on the view. -/
def groupKeys (view : List InventoryRecord) (f : InventoryRecord → String) :
    List String :=
  (view.map f).dedup

/-- groupby(f)[g].sum(): one row per distinct key, carrying the sum of
the aggregated column over the rows with that key. -/
def groupSum {M : Type} [AddCommMonoid M] (view : List InventoryRecord)
    (f : InventoryRecord → String) (g : InventoryRecord → M) :
    List (String × M) :=
  (groupKeys view f).map
    (fun k => (k, ((view.filter (fun r => decide (f r = k))).map g).sum))

/-- Line 177: per-category sales sums. -/
def category_sales (view : List InventoryRecord) : List (String × Nat) :=
  groupSum view (fun r => r.category) (fun r => r.sales)

/-- Line 196: per-region stock sums. -/
def region_stock (view : List InventoryRecord) : List (String × Nat) :=
  groupSum view (fun r => r.region) (fun r => r.stock_level)

/-- Ordering of month-keyed rows by their month label. -/
def monthKeyLE (p q : String × Rat) : Prop := p.1 ≤ q.1

instance : DecidableRel monthKeyLE :=
  fun p q => inferInstanceAs (Decidable (p.1 ≤ q.1))

instance : IsTotal (String × Rat) monthKeyLE :=
  ⟨fun a b => le_total a.1 b.1⟩

instance : IsTrans (String × Rat) monthKeyLE :=
  ⟨fun _ _ _ h1 h2 => le_trans h1 h2⟩

/-- Lines 252-253: group by month, sum revenue, then sort by month. -/
def monthly_revenue (view : List InventoryRecord) : List (String × Rat) :=
  List.insertionSort monthKeyLE
    (groupSum view (fun r => r.month) (fun r => r.revenue))

/-- The column names of the generated frame, in construction order:
the dict insertion order of lines 37-48 followed by the month column
appended at line 51. -/
def csvFieldNames : List String :=
  ["product_id", "category", "region", "date", "stock_level", "sales",
   "price", "cost", "revenue", "discount", "month"]

/-- Serialization of a rational-valued cell. -/
def ratCell (q : Rat) : String := toString q

/-- The cells of one CSV data row: the record's fields serialized in
column order, with no leading index cell (to_csv with index=False). -/
def csvCells (r : InventoryRecord) : List String :=
  [toString r.product_id, r.category, r.region, toString r.date,
   toString r.stock_level, toString r.sales, ratCell r.price,
   ratCell r.cost, ratCell r.revenue, ratCell r.discount, r.month]

/-- Line 158, to_csv(index=False) as a list of lines: one header line
of comma-joined column names, then one comma-joined line per record. -/
def to_csv_lines (view : List InventoryRecord) : List String :=
  String.intercalate "," csvFieldNames ::
    view.map (fun r => String.intercalate "," (csvCells r))

/-- Line 158, the full CSV text: each line newline-terminated. -/
def to_csv (view : List InventoryRecord) : String :=
  String.join ((to_csv_lines view).map (fun line => line ++ "\n"))

/-- A concrete record used by witnesses. -/
def sampleRec : InventoryRecord :=
  { product_id := 1, category := "Toys", region := "North", date := 3,
    stock_level := 50, sales := 10, price := 100, cost := 50,
    revenue := 500, discount := 1 / 10, month := "2024-01" }

/-- A concrete draw tuple used by witnesses. -/
def sampleDraws : Nat → Draws :=
  fun _ =>
    { catIdx := 0, regIdx := 0, dateOffset := 0, stockDraw := 50,
      salesDraw := 10, priceDraw := 100, costFactor := 1 / 2,
      discountDraw := 0 }

/-- Claim C1: filtered_df keeps exactly the records of the dataset
whose region is among the selected regions, whose date lies in the
inclusive interval, and whose category matches the selection unless
the selection is the sentinel "All"; no other record is included. -/
theorem filtered_df_mem_iff (df : List InventoryRecord)
    (sel : FilterSelection) (r : InventoryRecord) :
    r ∈ filtered_df df sel ↔
      r ∈ df ∧ r.region ∈ sel.regions ∧ sel.start_date ≤ r.date ∧
        r.date ≤ sel.end_date ∧
        (sel.category = "All" ∨ r.category = sel.category) := by
  unfold filtered_df matchesBase
  by_cases h : sel.category = "All"
  · simp [h, List.mem_filter, and_assoc]
  · simp only [if_pos (by exact h), List.mem_filter, Bool.and_eq_true,
      decide_eq_true_eq]
    constructor
    · rintro ⟨⟨hdf, ⟨⟨hr, h1⟩, h2⟩⟩, hc⟩
      exact ⟨hdf, hr, h1, h2, Or.inr hc⟩
    · rintro ⟨hdf, hr, h1, h2, hc⟩
      rcases hc with hc | hc
      · exact absurd hc h
      · exact ⟨⟨hdf, ⟨⟨hr, h1⟩, h2⟩⟩, hc⟩

/-- Claim C5: filtering is total over degenerate selections: an empty
region set, or an end date strictly before the start date, yields the
empty view rather than an error. -/
theorem filtered_df_degenerate (df : List InventoryRecord)
    (sel : FilterSelection)
    (h : sel.regions = [] ∨ sel.end_date < sel.start_date) :
    filtered_df df sel = [] := by
  have hbase : ∀ r ∈ df, ¬(matchesBase sel r = true) := by
    intro r _ hr
    unfold matchesBase at hr
    simp only [Bool.and_eq_true, decide_eq_true_eq] at hr
    rcases h with h | h
    · rw [h] at hr
      exact absurd hr.1.1 (List.not_mem_nil r.region)
    · have := lt_of_le_of_lt (le_trans hr.1.2 hr.2) h
      exact lt_irrefl _ this
  have hnil : df.filter (matchesBase sel) = [] :=
    List.filter_eq_nil_iff.mpr hbase
  unfold filtered_df
  by_cases hc : sel.category ≠ "All"
  · rw [if_pos hc, hnil]
    rfl
  · rw [if_neg hc, hnil]

/-- Witness for C5: both degenerate selections evaluated on a concrete
one-record dataset give the empty view. -/
theorem filtered_df_degenerate_witness :
    filtered_df [sampleRec]
        { regions := [], category := "All", start_date := 0, end_date := 10 } = [] ∧
    filtered_df [sampleRec]
        { regions := ["North"], category := "All", start_date := 10, end_date := 0 } = [] :=
  ⟨filtered_df_degenerate [sampleRec] _ (Or.inl rfl),
   filtered_df_degenerate [sampleRec] _ (Or.inr (by norm_num))⟩

/-- Claim C10: the filtered view is a sublist of the dataset: retained
records keep their relative order and are unchanged, and the dataset
itself is untouched (filtering is pure). -/
theorem filtered_df_sublist (df : List InventoryRecord)
    (sel : FilterSelection) : (filtered_df df sel).Sublist df := by
  unfold filtered_df
  by_cases hc : sel.category ≠ "All"
  · rw [if_pos hc]
    exact (List.filter_sublist _).trans (List.filter_sublist _)
  · rw [if_neg hc]
    exact List.filter_sublist _

/-- Summing a function over a duplicate-free key list in which one key
k0 has an extra contribution c adds c to the plain sum. -/
theorem sum_map_ite_add {M : Type} [AddCommMonoid M] (k0 : String) (c : M)
    (S : String → M) :
    ∀ ks : List String, ks.Nodup → k0 ∈ ks →
      (ks.map (fun k => if k0 = k then c + S k else S k)).sum =
        c + (ks.map S).sum := by
  intro ks
  induction ks with
  | nil => intro _ hk; cases hk
  | cons k ks ih =>
    intro hnd hk
    rcases List.mem_cons.mp hk with h | h
    · subst h
      have hmap : ks.map (fun k => if k0 = k then c + S k else S k) =
          ks.map S := by
        apply List.map_congr_left
        intro a ha
        have hne : k0 ≠ a := fun e => (List.nodup_cons.mp hnd).1 (e ▸ ha)
        simp [hne]
      simp [hmap, add_assoc]
    · have hne : k0 ≠ k := by
        intro e
        subst e
        exact (List.nodup_cons.mp hnd).1 h
      simp only [List.map_cons, List.sum_cons, if_neg hne]
      rw [ih (List.nodup_cons.mp hnd).2 h, add_left_comm]

/-- Partition lemma: when every row's key lies in a duplicate-free key
list, summing the per-key filtered sums over the keys recovers the sum
over all rows. -/
theorem sum_over_keys {M : Type} [AddCommMonoid M]
    (f : InventoryRecord → String) (g : InventoryRecord → M) :
    ∀ (view : List InventoryRecord) (ks : List String), ks.Nodup →
      (∀ r ∈ view, f r ∈ ks) →
      (ks.map
        (fun k => ((view.filter (fun r => decide (f r = k))).map g).sum)).sum =
        (view.map g).sum := by
  intro view
  induction view with
  | nil => intro ks _ _; simp
  | cons a l ih =>
    intro ks hnd hmem
    have hfa : f a ∈ ks := hmem a (List.mem_cons_self a l)
    have hrest : ∀ r ∈ l, f r ∈ ks := fun r hr => hmem r (List.mem_cons_of_mem a hr)
    have hmap : ks.map
        (fun k => (((a :: l).filter (fun r => decide (f r = k))).map g).sum) =
        ks.map (fun k =>
          if f a = k then
            g a + ((l.filter (fun r => decide (f r = k))).map g).sum
          else ((l.filter (fun r => decide (f r = k))).map g).sum) := by
      apply List.map_congr_left
      intro k _
      by_cases h : f a = k
      · simp [List.filter_cons, h]
      · simp [List.filter_cons, h]
    rw [hmap, sum_map_ite_add (f a) (g a) _ ks hnd hfa, ih ks hnd hrest]
    simp

/-- The per-key sums of a groupSum add up to the whole-column sum. -/
theorem groupSum_snd_sum {M : Type} [AddCommMonoid M]
    (view : List InventoryRecord) (f : InventoryRecord → String)
    (g : InventoryRecord → M) :
    ((groupSum view f g).map Prod.snd).sum = (view.map g).sum := by
  unfold groupSum
  rw [List.map_map]
  exact sum_over_keys f g view (groupKeys view f)
    (List.nodup_dedup _)
    (fun r hr => List.mem_dedup.mpr (List.mem_map_of_mem f hr))

/-- Claim C6: the per-category sales sums add up to total_sales, and
the per-region stock sums add up to total_stock. -/
theorem coverage_sums (view : List InventoryRecord) :
    ((category_sales view).map Prod.snd).sum = total_sales view ∧
    ((region_stock view).map Prod.snd).sum = total_stock view :=
  ⟨groupSum_snd_sum view (fun r => r.category) (fun r => r.sales),
   groupSum_snd_sum view (fun r => r.region) (fun r => r.stock_level)⟩

/-- Claim C7: monthly_revenue groups by month and sums revenue per
month — each output row carries the sum of revenue over the records of
its month, the months appearing are exactly the months present in the
view — and the rows come out in non-decreasing month order. -/
theorem monthly_revenue_spec (view : List InventoryRecord) :
    (monthly_revenue view).Pairwise monthKeyLE ∧
    (∀ p ∈ monthly_revenue view,
      p.2 = ((view.filter (fun r => decide (r.month = p.1))).map
        (fun r => r.revenue)).sum) ∧
    (∀ m : String,
      (∃ q : Rat, (m, q) ∈ monthly_revenue view) ↔
        m ∈ view.map (fun r => r.month)) := by
  refine ⟨List.sorted_insertionSort monthKeyLE _, ?_, ?_⟩
  · intro p hp
    have hp2 : p ∈ groupSum view (fun r => r.month) (fun r => r.revenue) :=
      (List.perm_insertionSort monthKeyLE _).mem_iff.mp hp
    unfold groupSum at hp2
    rcases List.mem_map.mp hp2 with ⟨k, _, he⟩
    rw [← he]
  · intro m
    constructor
    · rintro ⟨q, hq⟩
      have hq2 : (m, q) ∈ groupSum view (fun r => r.month) (fun r => r.revenue) :=
        (List.perm_insertionSort monthKeyLE _).mem_iff.mp hq
      unfold groupSum at hq2
      rcases List.mem_map.mp hq2 with ⟨k, hk, he⟩
      have hk2 : k = m := congrArg Prod.fst he
      subst hk2
      exact List.mem_dedup.mp hk
    · intro hm
      have hk : m ∈ groupKeys view (fun r => r.month) :=
        List.mem_dedup.mpr hm
      refine ⟨((view.filter (fun r => decide (r.month = m))).map
        (fun r => r.revenue)).sum, ?_⟩
      apply (List.perm_insertionSort monthKeyLE _).mem_iff.mpr
      unfold groupSum
      exact List.mem_map.mpr ⟨m, hk, rfl⟩

/-- The concrete witness draws satisfy the numpy range predicate. -/
theorem sampleDraws_valid : ∀ i : Nat, (sampleDraws i).Valid := by
  intro i
  unfold sampleDraws Draws.Valid
  norm_num

/-- Claim C2: every generated record has sales at most
min(stock_level, 100) — indeed at most min(stock_level, 99) — and, for
any admissible stock level, the sales values reachable by a valid
uniform draw are exactly the integers from 0 to min(stock_level, 99). -/
theorem generated_sales_policy (n : Nat) (draws : Nat → Draws)
    (h : ∀ i, (draws i).Valid) :
    (∀ r ∈ genRecords n draws,
      r.sales ≤ min r.stock_level 100 ∧ r.sales ≤ min r.stock_level 99) ∧
    (∀ stock s : Nat, stock < 500 →
      (s ≤ min stock 99 ↔
        ∃ d : Draws, d.Valid ∧ d.stockDraw = stock ∧ (mkRecord 0 d).sales = s)) := by
  constructor
  · intro r hr
    unfold genRecords at hr
    rcases List.mem_map.mp hr with ⟨i, _, he⟩
    subst he
    obtain ⟨_, _, _, _, h5, _⟩ := h i
    have hs : (mkRecord i (draws i)).sales = (draws i).salesDraw := rfl
    have hst : (mkRecord i (draws i)).stock_level = (draws i).stockDraw := rfl
    rw [hs, hst]
    omega
  · intro stock s hstock
    constructor
    · intro hs
      refine ⟨⟨0, 0, 0, stock, s, 10, 1 / 2, 0⟩, ?_, rfl, rfl⟩
      unfold Draws.Valid
      refine ⟨by norm_num, by norm_num, by norm_num, hstock,
        (show s < min (stock + 1) 100 by omega),
        by norm_num, by norm_num, by norm_num, by norm_num, by norm_num,
        by norm_num⟩
    · rintro ⟨d, hv, hstockeq, hseq⟩
      obtain ⟨_, _, _, _, h5, _⟩ := hv
      have hs : (mkRecord 0 d).sales = d.salesDraw := rfl
      rw [hs] at hseq
      omega

/-- Witness for C2: the concrete draws give a record obeying the cap,
and sales value 10 is reachable at stock level 50. -/
theorem generated_sales_policy_witness :
    ((mkRecord 0 (sampleDraws 0)).sales ≤
        min (mkRecord 0 (sampleDraws 0)).stock_level 100 ∧
      (mkRecord 0 (sampleDraws 0)).sales ≤
        min (mkRecord 0 (sampleDraws 0)).stock_level 99) ∧
    (10 ≤ min 50 99 ↔
      ∃ d : Draws, d.Valid ∧ d.stockDraw = 50 ∧ (mkRecord 0 d).sales = 10) := by
  have h := generated_sales_policy 1 sampleDraws sampleDraws_valid
  exact ⟨h.1 (mkRecord 0 (sampleDraws 0)) (by simp [genRecords]),
    h.2 50 10 (by norm_num)⟩

/-- Claim C3: every generated record has cost strictly below price
(the cost factor is below 1 and price is positive), hence nonnegative
revenue = sales * (price - cost). -/
theorem generated_cost_revenue (n : Nat) (draws : Nat → Draws)
    (h : ∀ i, (draws i).Valid) :
    ∀ r ∈ genRecords n draws, r.cost < r.price ∧ 0 ≤ r.revenue := by
  intro r hr
  unfold genRecords at hr
  rcases List.mem_map.mp hr with ⟨i, _, he⟩
  subst he
  obtain ⟨_, _, _, _, _, hp1, _, _, hf2, _, _⟩ := h i
  have hcost : (mkRecord i (draws i)).cost =
      (draws i).priceDraw * (draws i).costFactor := rfl
  have hprice : (mkRecord i (draws i)).price = (draws i).priceDraw := rfl
  have hrev : (mkRecord i (draws i)).revenue =
      ((draws i).salesDraw : Rat) *
        ((draws i).priceDraw - (draws i).priceDraw * (draws i).costFactor) := rfl
  have hpos : 0 < (draws i).priceDraw * (1 - (draws i).costFactor) :=
    mul_pos (by linarith) (by linarith)
  constructor
  · rw [hcost, hprice]
    nlinarith [hpos]
  · rw [hrev]
    apply mul_nonneg (Nat.cast_nonneg _)
    nlinarith [hpos]

/-- Witness for C3: the invariant evaluated on the record of the
concrete draws. -/
theorem generated_cost_revenue_witness :
    (mkRecord 0 (sampleDraws 0)).cost < (mkRecord 0 (sampleDraws 0)).price ∧
    0 ≤ (mkRecord 0 (sampleDraws 0)).revenue :=
  generated_cost_revenue 1 sampleDraws sampleDraws_valid
    (mkRecord 0 (sampleDraws 0)) (by simp [genRecords])

/-- Counterexample to claim C4: on the empty view the script's
average_discount is the floating-point not-a-number (pandas mean over
an empty series), with no guard turning it into 0 — not an explicitly
defined numeric or absent result. -/
theorem average_discount_empty_cex :
    average_discount [] = PyFloat.nan ∧ PyFloat.nan ≠ PyFloat.val 0 :=
  ⟨rfl, fun h => PyFloat.noConfusion h⟩

/-- Amended claim C4: average_discount equals the mean of the discount
column whenever the view is nonempty; on the empty view it is the
unguarded not-a-number that pandas mean produces. -/
theorem average_discount_amended (view : List InventoryRecord) :
    (view ≠ [] →
      average_discount view =
        PyFloat.val ((view.map (fun r => r.discount)).sum / (view.length : Rat))) ∧
    (view = [] → average_discount view = PyFloat.nan) := by
  constructor
  · intro h
    unfold average_discount seriesMean
    rw [if_neg (by simpa using h), List.length_map]
  · intro h
    subst h
    rfl

/-- Witness for C4 (amended): the mean of a one-record view, and the
not-a-number on the empty view. -/
theorem average_discount_amended_witness :
    average_discount [sampleRec] =
      PyFloat.val (([sampleRec].map (fun r => r.discount)).sum /
        (([sampleRec] : List InventoryRecord).length : Rat)) ∧
    average_discount [] = PyFloat.nan :=
  ⟨(average_discount_amended [sampleRec]).1 (by simp),
   (average_discount_amended []).2 rfl⟩

/-- Counterexample to claim C8: at n = 0 the script fails with a
pandas KeyError on the missing date column (the month-derivation line
runs on a column-less empty frame), which is not an InvalidArgument
kind; there is no argument validation in the script. -/
theorem generate_nonpositive_cex :
    generate_inventory_data 0 sampleDraws =
      Except.error (GenError.keyError "date") ∧
    GenError.keyError "date" ≠ GenError.invalidArgument :=
  ⟨rfl, fun h => GenError.noConfusion h⟩

/-- Amended claim C8: for every non-positive n the call does fail
rather than silently returning a malformed or empty dataset, but the
failure is a KeyError raised when deriving the month column from the
empty frame, not an InvalidArgument validation error. -/
theorem generate_nonpositive_amended (n : Int) (h : n ≤ 0)
    (draws : Nat → Draws) :
    generate_inventory_data n draws =
      Except.error (GenError.keyError "date") := by
  unfold generate_inventory_data genRecords
  rw [Int.toNat_eq_zero.mpr h]
  rfl

/-- Witness for C8 (amended): the failure evaluated at n = -3. -/
theorem generate_nonpositive_amended_witness :
    generate_inventory_data (-3) sampleDraws =
      Except.error (GenError.keyError "date") :=
  generate_nonpositive_amended (-3) (by norm_num) sampleDraws

/-- Claim C9: the CSV export has exactly one header line whose fields
are the record field names in data-model order, followed by one line
per record in view order — each the comma-joined serialization of that
record's eleven fields, with no index column. -/
theorem to_csv_format (view : List InventoryRecord) :
    (to_csv_lines view).length = view.length + 1 ∧
    (to_csv_lines view).head? =
      some "product_id,category,region,date,stock_level,sales,price,cost,revenue,discount,month" ∧
    (∀ i : Nat, (to_csv_lines view).get? (i + 1) =
      (view.get? i).map (fun r => String.intercalate "," (csvCells r))) ∧
    (∀ r : InventoryRecord, (csvCells r).length = 11 ∧
      (csvCells r).head? = some (toString r.product_id)) := by
  refine ⟨?_, rfl, ?_, ?_⟩
  · simp [to_csv_lines]
  · intro i
    simp [to_csv_lines, List.get?_map]
  · intro r
    exact ⟨rfl, rfl⟩
